import Mathlib

/-!
Verification of the Firecrawl n8n tool adapter
(`nodes/Firecrawl/FirecrawlTool.node.ts`).

The development shallowly embeds the adapter's data model and operations:
JavaScript JSON values, the object-spread merge used to build the outbound
request body, the authenticated request builder `makeFirecrawlRequest`, the
per-operation tool handler produced by `createToolHandler`, the
`JSON.stringify` renderings used for the success result and the error
message, the zod parameter schemas of the four operations, and the
`supplyData` tool factory.  Theorems at the end settle the specification
claims against these definitions.
-/

namespace Firecrawl

/-! ### JSON values

JavaScript values exchanged with the API, as a mutual inductive so that all
functions over them are structural.  `JsonObj` keeps key order, matching
JavaScript object insertion order; numbers are modelled as integers. -/

mutual

inductive Json where
  | null : Json
  | bool : Bool → Json
  | num : Int → Json
  | str : String → Json
  | arr : JsonArr → Json
  | obj : JsonObj → Json
  deriving DecidableEq

inductive JsonArr where
  | nil : JsonArr
  | cons : Json → JsonArr → JsonArr
  deriving DecidableEq

inductive JsonObj where
  | nil : JsonObj
  | cons : String → Json → JsonObj → JsonObj
  deriving DecidableEq

end

/-- First-occurrence lookup of a key in a JavaScript object. -/
def lookupKey : JsonObj → String → Option Json
  | .nil, _ => none
  | .cons k v rest, key => if k = key then some v else lookupKey rest key

/-- JavaScript property assignment: if the key already exists its value is
replaced in place (the key keeps its position), otherwise the property is
appended at the end. -/
def setKey : JsonObj → String → Json → JsonObj
  | .nil, key, v => .cons key v .nil
  | .cons k v' rest, key, v =>
      if k = key then .cons k v rest else .cons k v' (setKey rest key v)

/-- Spreading `fields` into `base`, as in the object literal
`\x7b ...base, ...fields \x7d`: each property of `fields` is assigned onto
`base` in order. -/
def JsonObj.spreadInto : JsonObj → JsonObj → JsonObj
  | base, .nil => base
  | base, .cons k v rest => JsonObj.spreadInto (setKey base k v) rest

/-- The keys of an object, in order. -/
def JsonObj.keys : JsonObj → List String
  | .nil => []
  | .cons k _ rest => k :: JsonObj.keys rest

/-! ### Request builder (`makeFirecrawlRequest`) -/

/-- The `firecrawlApi` credential record: optional base URL and an API key. -/
structure FirecrawlCredentials where
  baseUrl : Option String
  apiKey : String
  deriving DecidableEq

/-- Fallback base URL used when the credential's `baseUrl` is absent or
empty (JavaScript `|| 'https://api.firecrawl.dev/v2'` on a string). -/
def defaultBaseUrl : String := "https://api.firecrawl.dev/v2"

/-- Resolution `(credentials.baseUrl as string) || 'https://api.firecrawl.dev/v2'`:
a missing or empty (falsy) base URL resolves to the default. -/
def resolvedBaseUrl (creds : FirecrawlCredentials) : String :=
  match creds.baseUrl with
  | some s => if s = "" then defaultBaseUrl else s
  | none => defaultBaseUrl

/-- The options object passed to `context.helpers.httpRequest`. -/
structure HttpRequest where
  method : String
  url : String
  headers : List (String × String)
  body : JsonObj
  json : Bool
  deriving DecidableEq

/-- The request body built by `makeFirecrawlRequest`:
`\x7b integration: 'n8n-tool', ...body \x7d`. -/
def mergedBody (body : JsonObj) : JsonObj :=
  JsonObj.spreadInto (.cons "integration" (Json.str "n8n-tool") .nil) body

/-- The outbound request constructed by `makeFirecrawlRequest` for the given
credentials, operation and caller body.  (The actual network transmission is
the host helper's job and is modelled as a separate function argument of
the handler.) -/
def makeFirecrawlRequest (creds : FirecrawlCredentials) (operation : String)
    (body : JsonObj) : HttpRequest :=
  { method := "POST"
    url := resolvedBaseUrl creds ++ "/" ++ operation
    headers :=
      [("Authorization", "Bearer " ++ creds.apiKey),
       ("Content-Type", "application/json"),
       ("Accept", "application/json")]
    body := mergedBody body
    json := true }

/-! ### `JSON.stringify` -/

/-- The decimal digit character for `d < 10`. -/
def decDigitChar (d : Nat) : Char :=
  match d with
  | 0 => '0' | 1 => '1' | 2 => '2' | 3 => '3' | 4 => '4'
  | 5 => '5' | 6 => '6' | 7 => '7' | 8 => '8' | _ => '9'

/-- The lowercase hexadecimal digit character for `d < 16`, as emitted by
`JSON.stringify` in `\u00xx` escapes. -/
def hexDigitChar (d : Nat) : Char :=
  match d with
  | 0 => '0' | 1 => '1' | 2 => '2' | 3 => '3' | 4 => '4'
  | 5 => '5' | 6 => '6' | 7 => '7' | 8 => '8' | 9 => '9'
  | 10 => 'a' | 11 => 'b' | 12 => 'c' | 13 => 'd' | 14 => 'e' | _ => 'f'

/-- Decimal rendering of a natural number, most significant digit first. -/
def renderNat (n : Nat) : List Char :=
  if n = 0 then ['0'] else ((Nat.digits 10 n).reverse.map decDigitChar)

/-- Decimal rendering of an integer, as `String(n)` renders a JavaScript
integer. -/
def renderInt (n : Int) : List Char :=
  if n < 0 then '-' :: renderNat n.natAbs else renderNat n.natAbs

/-- JSON string escaping of one character, as performed by
`JSON.stringify`: quote, backslash and the named control characters get
two-character escapes, the remaining control characters get `\u00xx`, and
every other character stands for itself. -/
def escapeChar (c : Char) : List Char :=
  if c = '"' then ['\\', '"']
  else if c = '\\' then ['\\', '\\']
  else if c = '\x08' then ['\\', 'b']
  else if c = '\x0c' then ['\\', 'f']
  else if c = '\n' then ['\\', 'n']
  else if c = '\r' then ['\\', 'r']
  else if c = '\t' then ['\\', 't']
  else if c.toNat < 32 then
    ['\\', 'u', '0', '0', hexDigitChar (c.toNat / 16), hexDigitChar (c.toNat % 16)]
  else [c]

/-- A JSON string literal: the escaped characters between double quotes. -/
def quoteString (s : String) : List Char :=
  '"' :: (s.data.map escapeChar).flatten ++ ['"']

/-- A run of `n` space characters. -/
def spaces (n : Nat) : List Char := List.replicate n ' '

mutual

/-- Pretty rendering of a value at indentation `ind`, as
`JSON.stringify(v, null, 2)` renders it when the value sits `ind` spaces
deep. -/
def Json.render : Json → Nat → List Char
  | .null, _ => 'n' :: 'u' :: 'l' :: 'l' :: []
  | .bool true, _ => 't' :: 'r' :: 'u' :: 'e' :: []
  | .bool false, _ => 'f' :: 'a' :: 'l' :: 's' :: 'e' :: []
  | .num n, _ => renderInt n
  | .str s, _ => quoteString s
  | .arr .nil, _ => ['[', ']']
  | .arr (.cons x xs), ind =>
      '[' :: '\n' :: spaces (ind + 2) ++ Json.render x (ind + 2)
        ++ JsonArr.renderTail xs (ind + 2) ++ '\n' :: spaces ind ++ [']']
  | .obj .nil, _ => ['\x7b', '\x7d']
  | .obj (.cons k v ms), ind =>
      '\x7b' :: '\n' :: spaces (ind + 2) ++ quoteString k ++ ':' :: ' '
        :: Json.render v (ind + 2) ++ JsonObj.renderTail ms (ind + 2)
        ++ '\n' :: spaces ind ++ ['\x7d']

/-- The remaining elements of a nonempty pretty-rendered array: each is
preceded by a comma, a newline and the element indentation. -/
def JsonArr.renderTail : JsonArr → Nat → List Char
  | .nil, _ => []
  | .cons x xs, ind =>
      ',' :: '\n' :: spaces ind ++ Json.render x ind ++ JsonArr.renderTail xs ind

/-- The remaining members of a nonempty pretty-rendered object. -/
def JsonObj.renderTail : JsonObj → Nat → List Char
  | .nil, _ => []
  | .cons k v ms, ind =>
      ',' :: '\n' :: spaces ind ++ quoteString k ++ ':' :: ' '
        :: Json.render v ind ++ JsonObj.renderTail ms ind

end

/-- The string `JSON.stringify(v, null, 2)`. -/
def stringifyPretty (v : Json) : String := String.mk (Json.render v 0)

mutual

/-- Compact rendering, as `JSON.stringify(v)` (no indentation argument). -/
def Json.renderC : Json → List Char
  | .null => 'n' :: 'u' :: 'l' :: 'l' :: []
  | .bool true => 't' :: 'r' :: 'u' :: 'e' :: []
  | .bool false => 'f' :: 'a' :: 'l' :: 's' :: 'e' :: []
  | .num n => renderInt n
  | .str s => quoteString s
  | .arr .nil => ['[', ']']
  | .arr (.cons x xs) => '[' :: Json.renderC x ++ JsonArr.renderCTail xs ++ [']']
  | .obj .nil => ['\x7b', '\x7d']
  | .obj (.cons k v ms) =>
      '\x7b' :: quoteString k ++ ':' :: Json.renderC v ++ JsonObj.renderCTail ms ++ ['\x7d']

/-- Remaining compact-rendered array elements, comma separated. -/
def JsonArr.renderCTail : JsonArr → List Char
  | .nil => []
  | .cons x xs => ',' :: Json.renderC x ++ JsonArr.renderCTail xs

/-- Remaining compact-rendered object members, comma separated. -/
def JsonObj.renderCTail : JsonObj → List Char
  | .nil => []
  | .cons k v ms => ',' :: quoteString k ++ ':' :: Json.renderC v ++ JsonObj.renderCTail ms

end

/-- The string `JSON.stringify(v)`. -/
def stringifyCompact (v : Json) : String := String.mk (Json.renderC v)

/-! ### Errors, host events and the tool handler -/

/-- A thrown JavaScript error, as the handler's `catch` distinguishes it:
either the adapter's own structured kind (`NodeOperationError`, carrying a
message) or any other error, of which the handler only uses the message
(`error instanceof Error ? error.message : String(error)`). -/
inductive JsError where
  | nodeOperationError : String → JsError
  | other : String → JsError
  deriving DecidableEq

/-- Interactions with the host recorded during one handler invocation, in
order: the `addInputData` call (returning the correlation index), the
`httpRequest` call performed by `makeFirecrawlRequest`, and the
`addOutputData` call carrying either the wrapped success payload or a
`NodeOperationError`. -/
inductive HostEvent where
  | addInputData : Nat → JsonObj → HostEvent
  | httpCall : HttpRequest → HostEvent
  | addOutputSuccess : Nat → JsonObj → HostEvent
  | addOutputError : Nat → JsError → HostEvent
  deriving DecidableEq

/-- The handler produced by `createToolHandler(op)`, run on one input.
`http` is the host's `httpRequest` helper (returning the parsed JSON
response or throwing); `index` is the correlation index returned by
`addInputData`.  The result pairs the handler's return/throw with the list
of host interactions, in order. -/
def toolHandler (creds : FirecrawlCredentials) (op : String)
    (http : HttpRequest → Except JsError Json) (index : Nat)
    (input : JsonObj) : Except JsError String × List HostEvent :=
  let req := makeFirecrawlRequest creds op input
  match http req with
  | .ok response =>
      (.ok (stringifyPretty response),
       [.addInputData index input, .httpCall req,
        .addOutputSuccess index (.cons "response" response .nil)])
  | .error (.nodeOperationError m) =>
      (.error (.nodeOperationError m),
       [.addInputData index input, .httpCall req])
  | .error (.other m) =>
      let nodeError := JsError.nodeOperationError
        ("Firecrawl API error for " ++ op ++ ": " ++ m ++ ". Input: "
          ++ stringifyCompact (Json.obj input))
      (.error nodeError,
       [.addInputData index input, .httpCall req,
        .addOutputError index nodeError])

/-- The outbound HTTP requests among a list of host events. -/
def httpCalls : List HostEvent → List HttpRequest
  | [] => []
  | .httpCall r :: es => r :: httpCalls es
  | _ :: es => httpCalls es

/-- Whether any event records an error to the output-tracking channel. -/
def recordsError : List HostEvent → Bool
  | [] => false
  | .addOutputError _ _ :: _ => true
  | _ :: es => recordsError es

/-! ### A JSON parser

`JSON.parse` on the texts relevant here, written from the JSON grammar:
literals, strings with escapes, integer numerals, arrays and objects, with
insignificant whitespace between tokens.  Recursion is fuel-indexed; the
entry point `jsonParse` supplies fuel larger than any value the input can
denote. -/

/-- JSON insignificant whitespace. -/
def isJsonWs (c : Char) : Bool := c = ' ' || c = '\n' || c = '\t' || c = '\r'

/-- Drop leading insignificant whitespace. -/
def skipWs : List Char → List Char
  | [] => []
  | c :: cs => if isJsonWs c then skipWs cs else c :: cs

/-- The numeric value of a decimal digit character. -/
def digitVal (c : Char) : Nat := c.toNat - 48

/-- Split off the longest leading run of decimal digits. -/
def takeDigits : List Char → List Char × List Char
  | [] => ([], [])
  | c :: cs =>
      if c.isDigit then
        let p := takeDigits cs
        (c :: p.1, p.2)
      else ([], c :: cs)

/-- The natural number denoted by a most-significant-first digit run. -/
def digitsToNat (ds : List Char) : Nat :=
  ds.foldl (fun acc c => 10 * acc + digitVal c) 0

/-- The value of a hexadecimal digit character, if it is one. -/
def hexVal (c : Char) : Option Nat :=
  if c.isDigit then some (c.toNat - 48)
  else if 'a' ≤ c ∧ c ≤ 'f' then some (c.toNat - 87)
  else if 'A' ≤ c ∧ c ≤ 'F' then some (c.toNat - 55)
  else none

/-- Prepend a character to the string part of a string-parse result. -/
def consChar (c : Char) : Option (List Char × List Char) → Option (List Char × List Char)
  | some (s, r) => some (c :: s, r)
  | none => none

/-- Parse the body of a JSON string literal (the opening quote already
consumed), returning the denoted characters and the input after the
closing quote. -/
def parseStringBody : List Char → Option (List Char × List Char)
  | [] => none
  | c :: rest =>
      if c = '"' then some ([], rest)
      else if c = '\\' then
        match rest with
        | [] => none
        | e :: rest2 =>
            if e = '"' then consChar '"' (parseStringBody rest2)
            else if e = '\\' then consChar '\\' (parseStringBody rest2)
            else if e = '/' then consChar '/' (parseStringBody rest2)
            else if e = 'b' then consChar '\x08' (parseStringBody rest2)
            else if e = 'f' then consChar '\x0c' (parseStringBody rest2)
            else if e = 'n' then consChar '\n' (parseStringBody rest2)
            else if e = 'r' then consChar '\r' (parseStringBody rest2)
            else if e = 't' then consChar '\t' (parseStringBody rest2)
            else if e = 'u' then
              match rest2 with
              | h1 :: h2 :: h3 :: h4 :: rest3 =>
                  match hexVal h1, hexVal h2, hexVal h3, hexVal h4 with
                  | some a, some b, some c2, some d =>
                      consChar (Char.ofNat (4096 * a + 256 * b + 16 * c2 + d))
                        (parseStringBody rest3)
                  | _, _, _, _ => none
              | _ => none
            else none
      else consChar c (parseStringBody rest)

mutual

/-- Parse one JSON value (after optional whitespace), returning it and the
remaining input. -/
def parseVal : Nat → List Char → Option (Json × List Char)
  | 0, _ => none
  | fuel + 1, cs =>
      match skipWs cs with
      | [] => none
      | c :: rest =>
          if c = 'n' then
            match rest with
            | 'u' :: 'l' :: 'l' :: r => some (.null, r)
            | _ => none
          else if c = 't' then
            match rest with
            | 'r' :: 'u' :: 'e' :: r => some (.bool true, r)
            | _ => none
          else if c = 'f' then
            match rest with
            | 'a' :: 'l' :: 's' :: 'e' :: r => some (.bool false, r)
            | _ => none
          else if c = '"' then
            match parseStringBody rest with
            | some (content, r) => some (.str (String.mk content), r)
            | none => none
          else if c = '[' then
            let cs1 := skipWs rest
            if cs1.head? = some ']' then some (.arr .nil, cs1.tail)
            else
              match parseVal fuel cs1 with
              | some (x, r1) =>
                  match parseArrTail fuel r1 with
                  | some (xs, r2) => some (.arr (.cons x xs), r2)
                  | none => none
              | none => none
          else if c = '\x7b' then
            let cs1 := skipWs rest
            if cs1.head? = some '\x7d' then some (.obj .nil, cs1.tail)
            else
              match cs1 with
              | '"' :: r1 =>
                  match parseStringBody r1 with
                  | some (k, r2) =>
                      match skipWs r2 with
                      | ':' :: r3 =>
                          match parseVal fuel r3 with
                          | some (v, r4) =>
                              match parseObjTail fuel r4 with
                              | some (ms, r5) =>
                                  some (.obj (.cons (String.mk k) v ms), r5)
                              | none => none
                          | none => none
                      | _ => none
                  | none => none
              | _ => none
          else if c = '-' then
            match takeDigits rest with
            | ([], _) => none
            | (ds, r) => some (.num (-(digitsToNat ds : Int)), r)
          else if c.isDigit then
            match takeDigits (c :: rest) with
            | (ds, r) => some (.num (digitsToNat ds), r)
          else none

/-- After an array element: a comma and another element, or the closing
bracket. -/
def parseArrTail : Nat → List Char → Option (JsonArr × List Char)
  | 0, _ => none
  | fuel + 1, cs =>
      match skipWs cs with
      | ']' :: rest => some (.nil, rest)
      | ',' :: rest =>
          match parseVal fuel rest with
          | some (x, r1) =>
              match parseArrTail fuel r1 with
              | some (xs, r2) => some (.cons x xs, r2)
              | none => none
          | none => none
      | _ => none

/-- After an object member: a comma and another `"key": value` member, or
the closing brace. -/
def parseObjTail : Nat → List Char → Option (JsonObj × List Char)
  | 0, _ => none
  | fuel + 1, cs =>
      match skipWs cs with
      | '\x7d' :: rest => some (.nil, rest)
      | ',' :: rest =>
          match skipWs rest with
          | '"' :: r1 =>
              match parseStringBody r1 with
              | some (k, r2) =>
                  match skipWs r2 with
                  | ':' :: r3 =>
                      match parseVal fuel r3 with
                      | some (v, r4) =>
                          match parseObjTail fuel r4 with
                          | some (ms, r5) => some (.cons (String.mk k) v ms, r5)
                          | none => none
                      | none => none
                  | _ => none
              | none => none
          | _ => none
      | _ => none

end

/-- Model of `JSON.parse`: parse one value and require only whitespace after it. -/
def jsonParse (s : String) : Option Json :=
  match parseVal (s.length + 1) s.data with
  | some (v, rest) => if skipWs rest = [] then some v else none
  | none => none

/-! ### zod parameter schemas -/

mutual

/-- A zod type as used by the four schemas: `z.string()`,
`z.string().min(n)`, `z.number()`, `z.boolean()`, `z.enum([...])`,
`z.array(t)` and `z.object(\x7b...\x7d)`. -/
inductive ZType where
  | string : ZType
  | stringMin : Nat → ZType
  | number : ZType
  | boolean : ZType
  | enumOf : List String → ZType
  | array : ZType → ZType
  | obj : ZFields → ZType
  deriving DecidableEq

/-- The fields of a zod object: name, type, whether `.optional()` was
applied, and the `.describe(...)` text if any. -/
inductive ZFields where
  | nil : ZFields
  | cons : String → ZType → Bool → Option String → ZFields → ZFields
  deriving DecidableEq

end

/-- Effect of `.partial()` on a zod object: every field becomes optional. -/
def makeOptionalFields : ZFields → ZFields
  | .nil => .nil
  | .cons n t _ d rest => .cons n t true d (makeOptionalFields rest)

/-- Effect of `.partial()` applied to a zod type (acts on objects only). -/
def ZType.asPartial : ZType → ZType
  | .obj fs => .obj (makeOptionalFields fs)
  | t => t

/-- The declared type and optionality of a named field. -/
def getField : ZFields → String → Option (ZType × Bool)
  | .nil, _ => none
  | .cons n t opt _ rest, key =>
      if n = key then some (t, opt) else getField rest key

/-- The declared field names, in order. -/
def fieldNames : ZFields → List String
  | .nil => []
  | .cons n _ _ _ rest => n :: fieldNames rest

mutual

/-- The number of `.min(...)` string constraints occurring anywhere in a
zod type. -/
def countMin : ZType → Nat
  | .stringMin _ => 1
  | .array t => countMin t
  | .obj fs => countMinFields fs
  | _ => 0

/-- The number of `.min(...)` string constraints under a field list. -/
def countMinFields : ZFields → Nat
  | .nil => 0
  | .cons _ t _ _ rest => countMin t + countMinFields rest

end

mutual

/-- zod validation of a value against a type: strings, numbers and
booleans by shape, `.min(n)` by length, enums by membership, arrays
elementwise, objects fieldwise (a declared field must validate when
present and may only be absent when optional; unknown keys are
stripped, not rejected). -/
def validType (t : ZType) (j : Json) : Bool :=
  match t, j with
  | .string, .str _ => true
  | .stringMin n, .str s => n ≤ s.length
  | .number, .num _ => true
  | .boolean, .bool _ => true
  | .enumOf vs, .str s => vs.contains s
  | .array t', .arr xs => validArr t' xs
  | .obj fs, .obj kvs => validFields fs kvs
  | _, _ => false
termination_by (sizeOf t, sizeOf j)

/-- Elementwise validation of an array. -/
def validArr (t : ZType) (xs : JsonArr) : Bool :=
  match xs with
  | .nil => true
  | .cons x rest => validType t x && validArr t rest
termination_by (sizeOf t, sizeOf xs)

/-- Fieldwise validation of an object against declared fields. -/
def validFields (fs : ZFields) (kvs : JsonObj) : Bool :=
  match fs with
  | .nil => true
  | .cons n t opt _ rest =>
      (match lookupKey kvs n with
       | some v => validType t v
       | none => opt) && validFields rest kvs
termination_by (sizeOf fs, sizeOf kvs)

end

/-! ### The four operations: descriptions and schemas -/

/-- Built-in description template of the scrape tool. -/
def scrapeToolDescription : String :=
  "Scrape content from a single URL with advanced options. \n" ++
  "This is the most powerful, fastest and most reliable scraper tool, if available you should always default to using this tool for any web scraping needs.\n" ++
  "\n" ++
  "**Best for:** Single page content extraction, when you know exactly which page contains the information.\n" ++
  "**Not recommended for:** Multiple pages (use crawl), unknown page (use search).\n" ++
  "**Common mistakes:** Using scrape for a list of URLs (use crawl instead for multiple URLs).\n" ++
  "**Prompt Example:** \"Get the content of the page at https://example.com.\"\n" ++
  "**Usage Example:**\n" ++
  "```json\n" ++
  "\x7b\n" ++
  "  \"url\": \"https://example.com\",\n" ++
  "  \"formats\": [\"markdown\"],\n" ++
  "  \"onlyMainContent\": true\n" ++
  "\x7d\n" ++
  "```\n" ++
  "**Returns:** Markdown, HTML, or other formats as specified."

/-- Built-in description template of the map tool. -/
def mapToolDescription : String :=
  "Map a website to discover all indexed URLs on the site.\n" ++
  "\n" ++
  "**Best for:** Discovering URLs on a website before deciding what to scrape; finding specific sections of a website.\n" ++
  "**Not recommended for:** When you already know which specific URL you need (use scrape); when you need the content of the pages (use scrape after mapping).\n" ++
  "**Common mistakes:** Using crawl to discover URLs instead of map.\n" ++
  "**Prompt Example:** \"List all URLs on example.com.\"\n" ++
  "**Usage Example:**\n" ++
  "```json\n" ++
  "\x7b\n" ++
  "  \"url\": \"https://example.com\"\n" ++
  "\x7d\n" ++
  "```\n" ++
  "**Returns:** Array of URLs found on the site."

/-- Built-in description template of the search tool. -/
def searchToolDescription : String :=
  "Search the web and optionally extract content from search results. This is the most powerful web search tool available, and if available you should always default to using this tool for any web search needs.\n" ++
  "\n" ++
  "**Best for:** Finding specific information across multiple websites, when you don't know which website has the information; when you need the most relevant content for a query.\n" ++
  "**Not recommended for:** When you already know which website to scrape (use scrape); when you need comprehensive coverage of a single website (use map or crawl).\n" ++
  "**Common mistakes:** Using crawl or map for open-ended questions (use search instead).\n" ++
  "**Scrape Options:** Only use scrapeOptions when you think it is absolutely necessary. When you do so default to a lower limit to avoid timeouts, 5 or lower.\n" ++
  "**Optimal Workflow:** Search first without formats, then after fetching the results, use the scrape tool to get the content of the relevant page(s) that you want to scrape.\n" ++
  "**Prompt Example:** \"Find the latest research papers on AI published in 2023.\"\n" ++
  "**Usage Example without formats (Preferred):**\n" ++
  "```json\n" ++
  "\x7b\n" ++
  "  \"query\": \"top AI companies\",\n" ++
  "  \"limit\": 5\n" ++
  "\x7d\n" ++
  "```\n" ++
  "**Usage Example with formats:**\n" ++
  "```json\n" ++
  "\x7b\n" ++
  "  \"query\": \"latest AI research papers 2023\",\n" ++
  "  \"limit\": 5,\n" ++
  "  \"scrapeOptions\": \x7b\n" ++
  "    \"formats\": [\"markdown\"],\n" ++
  "    \"onlyMainContent\": true\n" ++
  "  \x7d\n" ++
  "\x7d\n" ++
  "```\n" ++
  "**Returns:** Array of search results (with optional scraped content)."

/-- Built-in description template of the crawl tool. -/
def crawlToolDescription : String :=
  "Starts a crawl job on a website and extracts content from all pages.\n" ++
  "\n" ++
  "**Best for:** Extracting content from multiple related pages, when you need comprehensive coverage.\n" ++
  "**Not recommended for:** Extracting content from a single page (use scrape); when you need fast results (crawling can be slow).\n" ++
  "**Warning:** Crawl responses can be very large and may exceed token limits. Limit the crawl depth and number of pages.\n" ++
  "**Common mistakes:** Setting limit or maxDiscoveryDepth too high (causes token overflow) or too low (causes missing pages); using crawl for a single page (use scrape instead). Using a /* wildcard is not recommended.\n" ++
  "**Prompt Example:** \"Get all blog posts from the first two levels of example.com/blog.\"\n" ++
  "**Usage Example:**\n" ++
  "```json\n" ++
  "\x7b\n" ++
  "  \"url\": \"https://example.com/blog\",\n" ++
  "  \"maxDiscoveryDepth\": 5,\n" ++
  "  \"limit\": 20,\n" ++
  "  \"allowExternalLinks\": false,\n" ++
  "  \"deduplicateSimilarURLs\": true,\n" ++
  "  \"sitemap\": \"include\"\n" ++
  "\x7d\n" ++
  "```\n" ++
  "**Returns:** Operation ID for status checking."

/-- The scrape schema's fields. -/
def scrapeFields : ZFields :=
  .cons "url" .string false (some "The URL to scrape")
  (.cons "formats"
    (.array (.enumOf ["markdown", "html", "rawHtml", "links", "screenshot"]))
    true (some "Output formats to return (default: [\"markdown\"])")
  (.cons "onlyMainContent" .boolean true
    (some "Only return the main content of the page excluding headers, navs, footers, etc.")
  (.cons "includeTags" (.array .string) true
    (some "Only include tags, classes and ids from the page in the final output")
  (.cons "excludeTags" (.array .string) true
    (some "Tags, classes and ids to remove from the output")
  (.cons "waitFor" .number true
    (some "Wait x amount of milliseconds for the page to load to fetch content")
  (.cons "mobile" .boolean true
    (some "Emulate a mobile device to load the page")
  .nil))))))

/-- The scrape parameter schema. -/
def scrapeSchema : ZType := .obj scrapeFields

/-- The map schema's fields. -/
def mapFields : ZFields :=
  .cons "url" .string false (some "The base URL to start mapping from")
  (.cons "search" .string true (some "Search query to filter discovered URLs")
  (.cons "sitemap" (.enumOf ["include", "skip", "only"]) true
    (some "How to use sitemap: include (default), skip, or only")
  (.cons "includeSubdomains" .boolean true (some "Include subdomains of the website")
  (.cons "limit" .number true (some "Maximum number of links to return")
  (.cons "ignoreQueryParameters" .boolean true
    (some "Ignore query parameters when mapping URLs")
  .nil)))))

/-- The map parameter schema. -/
def mapSchema : ZType := .obj mapFields

/-- The nested `scrapeOptions` object literal of the search schema,
before `.partial()`. -/
def searchScrapeOptionsInner : ZFields :=
  .cons "formats"
    (.array (.enumOf ["markdown", "html", "rawHtml", "links", "screenshot"]))
    true none
  (.cons "onlyMainContent" .boolean true none
  (.cons "includeTags" (.array .string) true none
  (.cons "excludeTags" (.array .string) true none
  (.cons "waitFor" .number true none
  (.cons "mobile" .boolean true none
  .nil)))))

/-- The `scrapeOptions` sub-schema of the search schema
(`z.object(\x7b...\x7d).partial()`). -/
def searchScrapeOptionsType : ZType := (ZType.obj searchScrapeOptionsInner).asPartial

/-- The search schema's fields. -/
def searchFields : ZFields :=
  .cons "query" (.stringMin 1) false (some "The search query string")
  (.cons "limit" .number true (some "Maximum number of results to return")
  (.cons "tbs" .string true (some "Time-based search parameter")
  (.cons "filter" .string true (some "Filter parameter for search")
  (.cons "location" .string true (some "Location for search results")
  (.cons "scrapeOptions" searchScrapeOptionsType true
    (some "Options for scraping each search result")
  .nil)))))

/-- The search parameter schema. -/
def searchSchema : ZType := .obj searchFields

/-- The nested `scrapeOptions` object literal of the crawl schema,
before `.partial()`. -/
def crawlScrapeOptionsInner : ZFields :=
  .cons "formats"
    (.array (.enumOf ["markdown", "html", "rawHtml", "links", "screenshot"]))
    true none
  (.cons "onlyMainContent" .boolean true none
  (.cons "includeTags" (.array .string) true none
  (.cons "excludeTags" (.array .string) true none
  (.cons "waitFor" .number true none
  (.cons "mobile" .boolean true none
  .nil)))))

/-- The `scrapeOptions` sub-schema of the crawl schema
(`z.object(\x7b...\x7d).partial()`). -/
def crawlScrapeOptionsType : ZType := (ZType.obj crawlScrapeOptionsInner).asPartial

/-- The crawl schema's fields. -/
def crawlFields : ZFields :=
  .cons "url" .string false (some "The base URL to start crawling from")
  (.cons "excludePaths" (.array .string) true
    (some "URL path patterns to exclude (e.g., [\"/admin/*\"])")
  (.cons "includePaths" (.array .string) true
    (some "URL path patterns to include (e.g., [\"/blog/*\"])")
  (.cons "maxDiscoveryDepth" .number true
    (some "Maximum depth to crawl relative to the start URL")
  (.cons "sitemap" (.enumOf ["skip", "include", "only"]) true
    (some "How to use sitemap")
  (.cons "limit" .number true (some "Maximum number of pages to crawl")
  (.cons "allowExternalLinks" .boolean true
    (some "Allow following links to external domains")
  (.cons "allowSubdomains" .boolean true (some "Allow crawling subdomains")
  (.cons "crawlEntireDomain" .boolean true (some "Crawl the entire domain")
  (.cons "delay" .number true (some "Delay between requests in milliseconds")
  (.cons "maxConcurrency" .number true (some "Maximum concurrent requests")
  (.cons "deduplicateSimilarURLs" .boolean true (some "Deduplicate similar URLs")
  (.cons "ignoreQueryParameters" .boolean true
    (some "Ignore query parameters when crawling")
  (.cons "scrapeOptions" crawlScrapeOptionsType true
    (some "Options for scraping each page during the crawl")
  .nil)))))))))))))

/-- The crawl parameter schema. -/
def crawlSchema : ZType := .obj crawlFields

/-! ### `supplyData` -/

/-- The `DynamicStructuredTool` built by `supplyData`: its name,
description and schema, plus the operation its handler is bound to
(`func: createToolHandler(op)`). -/
structure ToolDef where
  name : String
  description : String
  schema : ZType
  op : String
  deriving DecidableEq

/-- JavaScript `customDescription || builtIn` on strings: the empty
(falsy) string falls back to the built-in template. -/
def orElseDescription (custom builtIn : String) : String :=
  if custom = "" then builtIn else custom

/-- Model of `supplyData`, given the resolved `toolType` and `description`
parameters: the switch over the operation, producing the configured tool
or throwing `NodeOperationError` for an unknown operation.  It performs no
outbound request, so its host-event trace is empty. -/
def supplyData (operation customDescription : String) :
    Except JsError ToolDef × List HostEvent :=
  let toolName := "firecrawl_" ++ operation
  if operation = "scrape" then
    (.ok ⟨toolName, orElseDescription customDescription scrapeToolDescription,
          scrapeSchema, "scrape"⟩, [])
  else if operation = "map" then
    (.ok ⟨toolName, orElseDescription customDescription mapToolDescription,
          mapSchema, "map"⟩, [])
  else if operation = "search" then
    (.ok ⟨toolName, orElseDescription customDescription searchToolDescription,
          searchSchema, "search"⟩, [])
  else if operation = "crawl" then
    (.ok ⟨toolName, orElseDescription customDescription crawlToolDescription,
          crawlSchema, "crawl"⟩, [])
  else
    (.error (.nodeOperationError ("Unknown operation: " ++ operation)), [])

/-- Modelled from the spec: the host agent framework's invocation of a
registered tool (`DynamicStructuredTool` from the agent library, not part
of this repository) validates the structured arguments against the tool's
declared parameter schema before the tool's handler function runs; input
rejected by the schema raises an error and the handler is never called, so
no host interaction happens. -/
def invokeTool (creds : FirecrawlCredentials) (tool : ToolDef)
    (http : HttpRequest → Except JsError Json) (index : Nat)
    (input : JsonObj) : Except JsError String × List HostEvent :=
  if validType tool.schema (.obj input) then
    toolHandler creds tool.op http index input
  else
    (.error (.other "Received tool input did not match expected schema"), [])

/-! ### Fuel weight of a value

A lower bound on parser fuel sufficient to re-parse a rendered value; each
recursion layer of `parseVal`/`parseArrTail`/`parseObjTail` costs one. -/

mutual

/-- Fuel needed to parse a rendered value. -/
def Json.weight : Json → Nat
  | .arr xs => 1 + JsonArr.weight xs
  | .obj ms => 1 + JsonObj.weight ms
  | _ => 1

/-- Fuel needed to parse a rendered array tail (plus its closing bracket). -/
def JsonArr.weight : JsonArr → Nat
  | .nil => 1
  | .cons x xs => 1 + Json.weight x + JsonArr.weight xs

/-- Fuel needed to parse a rendered object tail (plus its closing brace). -/
def JsonObj.weight : JsonObj → Nat
  | .nil => 1
  | .cons _ v ms => 1 + Json.weight v + JsonObj.weight ms

end

/-- The input does not begin with a decimal digit (so a preceding numeral
cannot capture characters from it). -/
def headNotDigit : List Char → Prop
  | [] => True
  | c :: _ => c.isDigit = false

/-! ### Induction principles for the object and array list types

The mutual `Json` types give Lean a multi-motive recursor that the
`induction` tactic cannot use directly; these single-motive eliminators
recurse along the list spine only, which is all the lemmas below need. -/

@[induction_eliminator]
def JsonObj.inductionOn {motive : JsonObj → Prop} (nil : motive .nil)
    (cons : ∀ (k : String) (v : Json) (rest : JsonObj),
      motive rest → motive (.cons k v rest)) : ∀ o, motive o
  | .nil => nil
  | .cons k v rest => cons k v rest (JsonObj.inductionOn nil cons rest)

@[induction_eliminator]
def JsonArr.inductionOn {motive : JsonArr → Prop} (nil : motive .nil)
    (cons : ∀ (v : Json) (rest : JsonArr),
      motive rest → motive (.cons v rest)) : ∀ o, motive o
  | .nil => nil
  | .cons v rest => cons v rest (JsonArr.inductionOn nil cons rest)

/-! ### Properties of the body merge -/

theorem lookupKey_setKey_self (o : JsonObj) (k : String) (v : Json) :
    lookupKey (setKey o k v) k = some v := by
  induction o with
  | nil => simp [setKey, lookupKey]
  | cons k' v' rest ih =>
      by_cases h : k' = k
      · subst h; simp [setKey, lookupKey]
      · simp [setKey, lookupKey, h, ih]

theorem lookupKey_setKey_other (o : JsonObj) (k k' : String) (v : Json)
    (hne : k ≠ k') : lookupKey (setKey o k v) k' = lookupKey o k' := by
  induction o with
  | nil => simp [setKey, lookupKey, hne]
  | cons k0 v0 rest ih =>
      by_cases h : k0 = k
      · subst h; simp [setKey, lookupKey, hne]
      · simp [setKey, lookupKey, h, ih]

theorem lookupKey_eq_none_of_not_mem (o : JsonObj) (k : String)
    (h : k ∉ o.keys) : lookupKey o k = none := by
  induction o with
  | nil => simp [lookupKey]
  | cons k0 v0 rest ih =>
      simp [JsonObj.keys] at h
      simp [lookupKey, Ne.symm h.1, ih h.2]

theorem lookupKey_spreadInto (fields : JsonObj) :
    ∀ (base : JsonObj) (k : String), (JsonObj.keys fields).Nodup →
      lookupKey (JsonObj.spreadInto base fields) k
        = (lookupKey fields k).or (lookupKey base k) := by
  induction fields with
  | nil => intro base k _; simp [JsonObj.spreadInto, lookupKey]
  | cons k0 v0 rest ih =>
      intro base k hnd
      simp [JsonObj.keys, List.nodup_cons] at hnd
      rw [JsonObj.spreadInto, ih _ k hnd.2]
      by_cases h : k0 = k
      · subst h
        rw [lookupKey_eq_none_of_not_mem rest k0 hnd.1]
        simp [lookupKey, lookupKey_setKey_self]
      · simp [lookupKey, h, lookupKey_setKey_other _ _ _ _ h]

theorem lookupKey_mergedBody (input : JsonObj)
    (hnd : (JsonObj.keys input).Nodup) :
    lookupKey (mergedBody input) "integration"
      = (lookupKey input "integration").or (some (Json.str "n8n-tool")) := by
  rw [mergedBody, lookupKey_spreadInto input _ _ hnd]
  simp [lookupKey]

/-- One handler invocation performs exactly one outbound request, namely
the one `makeFirecrawlRequest` builds. -/
theorem httpCalls_toolHandler (creds : FirecrawlCredentials) (op : String)
    (http : HttpRequest → Except JsError Json) (index : Nat) (input : JsonObj) :
    httpCalls (toolHandler creds op http index input).2
      = [makeFirecrawlRequest creds op input] := by
  cases h : http (makeFirecrawlRequest creds op input) with
  | ok response => simp [toolHandler, h, httpCalls]
  | error e =>
      cases e with
      | nodeOperationError m => simp [toolHandler, h, httpCalls]
      | other m => simp [toolHandler, h, httpCalls]

/-! ### Claims C1, C2, C5, C6, C7, C8, C9 -/

/-- Claim C1, counterexample: the body is built as
`\x7b integration: 'n8n-tool', ...body \x7d`, so a caller-supplied
`integration` key is spread after the marker and wins.  Invoking the
scrape handler with input `\x7b integration: "custom" \x7d` sends a body
whose `integration` field is `"custom"`, not `"n8n-tool"`. -/
theorem c1_marker_counterexample :
    httpCalls (toolHandler ⟨none, "key"⟩ "scrape" (fun _ => Except.ok Json.null) 0
        (JsonObj.cons "integration" (Json.str "custom") .nil)).2
      = [makeFirecrawlRequest ⟨none, "key"⟩ "scrape"
          (JsonObj.cons "integration" (Json.str "custom") .nil)]
    ∧ lookupKey (makeFirecrawlRequest ⟨none, "key"⟩ "scrape"
        (JsonObj.cons "integration" (Json.str "custom") .nil)).body "integration"
      = some (Json.str "custom")
    ∧ some (Json.str "custom") ≠ some (Json.str "n8n-tool") :=
  ⟨rfl, rfl, by decide⟩

/-- Claim C1 amended: every outbound body of a handler invocation contains
the `integration` field; when the caller did not supply one it equals the
fixed marker `"n8n-tool"`, but a caller-supplied `integration` value is
kept (the marker, inserted first, is overwritten by the caller's spread). -/
theorem c1_integration_marker (creds : FirecrawlCredentials) (op : String)
    (http : HttpRequest → Except JsError Json) (index : Nat) (input : JsonObj)
    (hnd : (JsonObj.keys input).Nodup) :
    ∀ req ∈ httpCalls (toolHandler creds op http index input).2,
      lookupKey req.body "integration"
        = (lookupKey input "integration").or (some (Json.str "n8n-tool")) := by
  intro req hreq
  rw [httpCalls_toolHandler] at hreq
  simp only [List.mem_singleton] at hreq
  subst hreq
  simpa [makeFirecrawlRequest] using lookupKey_mergedBody input hnd

/-- Witness for the amended C1 at a concrete invocation. -/
theorem c1_integration_marker_witness :
    (JsonObj.keys (JsonObj.cons "url" (Json.str "https://example.com") .nil)).Nodup
    ∧ ∀ req ∈ httpCalls (toolHandler ⟨none, "key"⟩ "scrape"
        (fun _ => Except.ok Json.null) 0
        (JsonObj.cons "url" (Json.str "https://example.com") .nil)).2,
      lookupKey req.body "integration"
        = ((lookupKey (JsonObj.cons "url" (Json.str "https://example.com") .nil)
            "integration").or (some (Json.str "n8n-tool"))) :=
  ⟨by decide,
   c1_integration_marker ⟨none, "key"⟩ "scrape" (fun _ => Except.ok Json.null) 0
     (JsonObj.cons "url" (Json.str "https://example.com") .nil) (by decide)⟩

/-- Claim C2, counterexample: when the outbound call fails with an error
that is already a `NodeOperationError`, the handler re-throws it without
calling `addOutputData`, so this thrown error is never recorded to the
output-tracking channel. -/
theorem c2_recording_counterexample :
    (toolHandler ⟨none, "key"⟩ "scrape"
        (fun _ => Except.error (JsError.nodeOperationError "boom")) 0
        (JsonObj.cons "url" (Json.str "https://example.com") .nil)).1
      = Except.error (JsError.nodeOperationError "boom")
    ∧ recordsError (toolHandler ⟨none, "key"⟩ "scrape"
        (fun _ => Except.error (JsError.nodeOperationError "boom")) 0
        (JsonObj.cons "url" (Json.str "https://example.com") .nil)).2 = false :=
  ⟨rfl, rfl⟩

/-- Claim C2 amended: when the outbound call fails with an error that is
not the adapter's own structured kind, the wrapped structured error is
recorded to the output-tracking channel under the invocation's correlation
index and then raised; an error that is already a `NodeOperationError` is
re-raised unchanged with no output record. -/
theorem c2_error_recording (creds : FirecrawlCredentials) (op : String)
    (http : HttpRequest → Except JsError Json) (index : Nat) (input : JsonObj)
    (m : String) :
    (http (makeFirecrawlRequest creds op input) = .error (.other m) →
      (toolHandler creds op http index input).1
          = .error (.nodeOperationError ("Firecrawl API error for " ++ op ++ ": "
              ++ m ++ ". Input: " ++ stringifyCompact (.obj input)))
        ∧ HostEvent.addOutputError index
            (.nodeOperationError ("Firecrawl API error for " ++ op ++ ": "
              ++ m ++ ". Input: " ++ stringifyCompact (.obj input)))
            ∈ (toolHandler creds op http index input).2)
    ∧ (http (makeFirecrawlRequest creds op input) = .error (.nodeOperationError m) →
      (toolHandler creds op http index input).1 = .error (.nodeOperationError m)
        ∧ recordsError (toolHandler creds op http index input).2 = false) := by
  constructor <;> intro h <;> simp [toolHandler, h, recordsError]

/-- Witness for the amended C2 at a concrete transport failure. -/
theorem c2_error_recording_witness :
    ((fun _ => Except.error (JsError.other "ECONNREFUSED")
        : HttpRequest → Except JsError Json)
      (makeFirecrawlRequest ⟨none, "key"⟩ "map"
        (JsonObj.cons "url" (Json.str "https://example.com") .nil))
      = Except.error (JsError.other "ECONNREFUSED"))
    ∧ ((toolHandler ⟨none, "key"⟩ "map"
          (fun _ => Except.error (JsError.other "ECONNREFUSED")) 0
          (JsonObj.cons "url" (Json.str "https://example.com") .nil)).1
        = .error (.nodeOperationError ("Firecrawl API error for " ++ "map" ++ ": "
            ++ "ECONNREFUSED" ++ ". Input: "
            ++ stringifyCompact (.obj (JsonObj.cons "url"
                (Json.str "https://example.com") .nil))))
      ∧ HostEvent.addOutputError 0
          (.nodeOperationError ("Firecrawl API error for " ++ "map" ++ ": "
            ++ "ECONNREFUSED" ++ ". Input: "
            ++ stringifyCompact (.obj (JsonObj.cons "url"
                (Json.str "https://example.com") .nil))))
          ∈ (toolHandler ⟨none, "key"⟩ "map"
              (fun _ => Except.error (JsError.other "ECONNREFUSED")) 0
              (JsonObj.cons "url" (Json.str "https://example.com") .nil)).2) :=
  ⟨rfl,
   (c2_error_recording ⟨none, "key"⟩ "map"
     (fun _ => Except.error (JsError.other "ECONNREFUSED")) 0
     (JsonObj.cons "url" (Json.str "https://example.com") .nil)
     "ECONNREFUSED").1 rfl⟩

/-- Claim C5: a `toolType` outside the four supported operations makes
`supplyData` throw a `NodeOperationError` naming the invalid value, with
no outbound request. -/
theorem c5_unknown_tool_type (operation : String)
    (hop : operation ∉ (["scrape", "map", "search", "crawl"] : List String))
    (d : String) :
    supplyData operation d
        = (.error (.nodeOperationError ("Unknown operation: " ++ operation)), [])
    ∧ (∃ pre post, "Unknown operation: " ++ operation = pre ++ operation ++ post)
    ∧ httpCalls (supplyData operation d).2 = [] := by
  simp only [List.mem_cons, List.mem_singleton, not_or] at hop
  obtain ⟨h1, h2, h3, h4⟩ := hop
  refine ⟨by simp [supplyData, h1, h2, h3, h4], ⟨"Unknown operation: ", "", ?_⟩,
    by simp [supplyData, h1, h2, h3, h4, httpCalls]⟩
  simp [String.append_empty]

/-- Witness for C5 at the unsupported operation `"extract"`. -/
theorem c5_unknown_tool_type_witness :
    ("extract" ∉ (["scrape", "map", "search", "crawl"] : List String))
    ∧ supplyData "extract" ""
        = (.error (.nodeOperationError ("Unknown operation: " ++ "extract")), []) :=
  ⟨by decide, (c5_unknown_tool_type "extract" (by decide) "").1⟩

/-- Claim C6: a failure that is not the adapter's own structured kind is
re-raised as a `NodeOperationError` whose message contains both the
operation name and the compact JSON rendering of the original input. -/
theorem c6_failure_message (creds : FirecrawlCredentials) (op : String)
    (http : HttpRequest → Except JsError Json) (index : Nat) (input : JsonObj)
    (m : String)
    (h : http (makeFirecrawlRequest creds op input) = .error (.other m)) :
    ∃ msg, (toolHandler creds op http index input).1
        = .error (.nodeOperationError msg)
      ∧ (∃ pre post, msg = pre ++ op ++ post)
      ∧ (∃ pre post, msg = pre ++ stringifyCompact (.obj input) ++ post) := by
  refine ⟨"Firecrawl API error for " ++ op ++ ": " ++ m ++ ". Input: "
      ++ stringifyCompact (.obj input),
    by simp [toolHandler, h],
    ⟨"Firecrawl API error for ",
     ": " ++ m ++ ". Input: " ++ stringifyCompact (.obj input),
     by simp [String.append_assoc]⟩,
    ⟨"Firecrawl API error for " ++ op ++ ": " ++ m ++ ". Input: ", "",
     by simp [String.append_assoc, String.append_empty]⟩⟩

/-- Witness for C6 at a concrete transport failure. -/
theorem c6_failure_message_witness :
    ((fun _ => Except.error (JsError.other "connection refused")
        : HttpRequest → Except JsError Json)
      (makeFirecrawlRequest ⟨none, "key"⟩ "search"
        (JsonObj.cons "query" (Json.str "lean theorem provers") .nil))
      = Except.error (JsError.other "connection refused"))
    ∧ ∃ msg, (toolHandler ⟨none, "key"⟩ "search"
          (fun _ => Except.error (JsError.other "connection refused")) 0
          (JsonObj.cons "query" (Json.str "lean theorem provers") .nil)).1
        = .error (.nodeOperationError msg)
      ∧ (∃ pre post, msg = pre ++ "search" ++ post)
      ∧ (∃ pre post, msg = pre ++ stringifyCompact
          (.obj (JsonObj.cons "query" (Json.str "lean theorem provers") .nil)) ++ post) :=
  ⟨rfl,
   c6_failure_message ⟨none, "key"⟩ "search"
     (fun _ => Except.error (JsError.other "connection refused")) 0
     (JsonObj.cons "query" (Json.str "lean theorem provers") .nil)
     "connection refused" rfl⟩

/-- Claim C7: an underlying failure that is already a `NodeOperationError`
is propagated to the caller unchanged, not re-wrapped. -/
theorem c7_node_error_passthrough (creds : FirecrawlCredentials) (op : String)
    (http : HttpRequest → Except JsError Json) (index : Nat) (input : JsonObj)
    (m : String)
    (h : http (makeFirecrawlRequest creds op input)
      = .error (.nodeOperationError m)) :
    (toolHandler creds op http index input).1
      = .error (.nodeOperationError m) := by
  simp [toolHandler, h]

/-- Witness for C7 at a concrete pass-through failure. -/
theorem c7_node_error_passthrough_witness :
    ((fun _ => Except.error (JsError.nodeOperationError "resolution failed")
        : HttpRequest → Except JsError Json)
      (makeFirecrawlRequest ⟨none, "key"⟩ "crawl"
        (JsonObj.cons "url" (Json.str "https://example.com/blog") .nil))
      = Except.error (JsError.nodeOperationError "resolution failed"))
    ∧ (toolHandler ⟨none, "key"⟩ "crawl"
        (fun _ => Except.error (JsError.nodeOperationError "resolution failed")) 0
        (JsonObj.cons "url" (Json.str "https://example.com/blog") .nil)).1
      = .error (.nodeOperationError "resolution failed") :=
  ⟨rfl,
   c7_node_error_passthrough ⟨none, "key"⟩ "crawl"
     (fun _ => Except.error (JsError.nodeOperationError "resolution failed")) 0
     (JsonObj.cons "url" (Json.str "https://example.com/blog") .nil)
     "resolution failed" rfl⟩

/-- Claim C8: for every operation, a non-empty custom description becomes
the tool's description verbatim; the built-in template is not used. -/
theorem c8_custom_description (op : String)
    (hop : op ∈ (["scrape", "map", "search", "crawl"] : List String))
    (d : String) (hd : d ≠ "") :
    ∃ t, (supplyData op d).1 = .ok t ∧ t.description = d := by
  simp only [List.mem_cons, List.not_mem_nil, or_false] at hop
  rcases hop with rfl | rfl | rfl | rfl <;>
    exact ⟨_, rfl, by simp [orElseDescription, hd]⟩

/-- Witness for C8: a custom description on the crawl tool. -/
theorem c8_custom_description_witness :
    ("crawl" ∈ (["scrape", "map", "search", "crawl"] : List String))
    ∧ ("Use this to start crawl jobs" ≠ "")
    ∧ ∃ t, (supplyData "crawl" "Use this to start crawl jobs").1 = .ok t
        ∧ t.description = "Use this to start crawl jobs" :=
  ⟨by decide, by decide,
   c8_custom_description "crawl" (by decide) "Use this to start crawl jobs"
     (by decide)⟩

/-- Claim C9: the `scrapeOptions` sub-schemas embedded in the search and
crawl schemas are identical, and their field set (names, types,
optionality) coincides with the corresponding top-level fields of the
scrape schema — everything except `url`. -/
theorem c9_scrape_options_consistency :
    searchScrapeOptionsInner = crawlScrapeOptionsInner
    ∧ searchScrapeOptionsType = crawlScrapeOptionsType
    ∧ fieldNames (makeOptionalFields searchScrapeOptionsInner)
        = ["formats", "onlyMainContent", "includeTags", "excludeTags",
           "waitFor", "mobile"]
    ∧ fieldNames scrapeFields
        = ["url", "formats", "onlyMainContent", "includeTags", "excludeTags",
           "waitFor", "mobile"]
    ∧ getField (makeOptionalFields searchScrapeOptionsInner) "formats"
        = some (.array (.enumOf ["markdown", "html", "rawHtml", "links",
            "screenshot"]), true)
    ∧ (∀ n ∈ (["formats", "onlyMainContent", "includeTags", "excludeTags",
          "waitFor", "mobile"] : List String),
        getField (makeOptionalFields searchScrapeOptionsInner) n
          = getField scrapeFields n) := by
  refine ⟨rfl, rfl, rfl, rfl, rfl, by decide⟩

/-! ### Claims C3 and C10 -/

/-- Claim C3: one handler invocation of a tool constructed by `supplyData`
issues exactly one outbound POST to the base URL joined with the operation
name, with bearer authorization and JSON content negotiation, and with the
caller-supplied fields merged with the integration marker as body. -/
theorem c3_single_request (op d : String) (t : ToolDef)
    (hop : (supplyData op d).1 = .ok t)
    (creds : FirecrawlCredentials) (http : HttpRequest → Except JsError Json)
    (index : Nat) (input : JsonObj)
    (hv : validType t.schema (.obj input) = true) :
    httpCalls (toolHandler creds t.op http index input).2
      = [{ method := "POST"
           url := resolvedBaseUrl creds ++ "/" ++ t.op
           headers := [("Authorization", "Bearer " ++ creds.apiKey),
                       ("Content-Type", "application/json"),
                       ("Accept", "application/json")]
           body := mergedBody input
           json := true }] := by
  rw [httpCalls_toolHandler]; rfl

/-- Witness for C3: the map tool invoked on `\x7b url: ... \x7d`. -/
theorem c3_single_request_witness :
    (supplyData "map" "").1
        = .ok ⟨"firecrawl_map", mapToolDescription, mapSchema, "map"⟩
    ∧ validType mapSchema
        (.obj (JsonObj.cons "url" (Json.str "https://example.com") .nil)) = true
    ∧ httpCalls (toolHandler ⟨none, "key"⟩ "map" (fun _ => Except.ok Json.null) 0
          (JsonObj.cons "url" (Json.str "https://example.com") .nil)).2
        = [{ method := "POST"
             url := resolvedBaseUrl ⟨none, "key"⟩ ++ "/" ++ "map"
             headers := [("Authorization", "Bearer " ++ "key"),
                         ("Content-Type", "application/json"),
                         ("Accept", "application/json")]
             body := mergedBody
               (JsonObj.cons "url" (Json.str "https://example.com") .nil)
             json := true }] :=
  ⟨rfl,
   by simp [validType, validFields, mapSchema, mapFields, lookupKey],
   c3_single_request "map" ""
     ⟨"firecrawl_map", mapToolDescription, mapSchema, "map"⟩ rfl
     ⟨none, "key"⟩ (fun _ => Except.ok Json.null) 0
     (JsonObj.cons "url" (Json.str "https://example.com") .nil)
     (by simp [validType, validFields, mapSchema, mapFields, lookupKey])⟩

/-- Claim C10: the search schema requires `query` to be a string of length
at least one — an empty `query` fails validation, so (per the host agent
framework's validate-before-call behaviour, `invokeTool`) the handler
never runs and no outbound request is made — and no other field of any of
the four schemas carries a `.min(...)` constraint. -/
theorem c10_query_min_length :
    getField searchFields "query" = some (.stringMin 1, false)
    ∧ (∀ input : JsonObj, validType searchSchema (.obj input) = true →
        ∃ s, lookupKey input "query" = some (.str s) ∧ 1 ≤ s.length)
    ∧ (∀ input : JsonObj, lookupKey input "query" = some (.str "") →
        validType searchSchema (.obj input) = false)
    ∧ (∀ (creds : FirecrawlCredentials)
        (http : HttpRequest → Except JsError Json) (index : Nat)
        (input : JsonObj) (t : ToolDef),
        (supplyData "search" "").1 = .ok t →
        lookupKey input "query" = some (.str "") →
        invokeTool creds t http index input
          = (.error (.other "Received tool input did not match expected schema"),
             [])
        ∧ httpCalls (invokeTool creds t http index input).2 = [])
    ∧ countMin scrapeSchema = 0 ∧ countMin mapSchema = 0
    ∧ countMin searchSchema = 1 ∧ countMin crawlSchema = 0 := by
  have hreject : ∀ input : JsonObj, lookupKey input "query" = some (.str "") →
      validType searchSchema (.obj input) = false := by
    intro input hq
    simp [validType, searchSchema, searchFields, validFields, hq]
  refine ⟨rfl, ?_, hreject, ?_, rfl, rfl, rfl, rfl⟩
  · intro input h
    simp only [searchSchema, validType, searchFields, validFields,
      Bool.and_eq_true] at h
    obtain ⟨h1, -⟩ := h
    cases hq : lookupKey input "query" with
    | none => rw [hq] at h1; simp at h1
    | some v =>
        have h2 : validType (ZType.stringMin 1) v = true := by
          rw [hq] at h1; simpa using h1
        cases v with
        | str s =>
            refine ⟨s, rfl, ?_⟩
            rw [validType.eq_def] at h2
            simpa using h2
        | null => rw [validType.eq_def] at h2; simp at h2
        | bool b => rw [validType.eq_def] at h2; simp at h2
        | num n => rw [validType.eq_def] at h2; simp at h2
        | arr xs => rw [validType.eq_def] at h2; simp at h2
        | obj ms => rw [validType.eq_def] at h2; simp at h2
  · intro creds http index input t hop hq
    have ht : t = ⟨"firecrawl_search", searchToolDescription, searchSchema,
        "search"⟩ := by
      simp [supplyData, orElseDescription] at hop
      exact hop.symm
    subst ht
    have : validType searchSchema (.obj input) = false := hreject input hq
    constructor
    · simp [invokeTool, this]
    · simp [invokeTool, this, httpCalls]

/-- Witness for C10: invoking the search tool with an empty query is
rejected without any host interaction. -/
theorem c10_query_min_length_witness :
    (supplyData "search" "").1
        = .ok ⟨"firecrawl_search", searchToolDescription, searchSchema, "search"⟩
    ∧ lookupKey (JsonObj.cons "query" (Json.str "") .nil) "query"
        = some (.str "")
    ∧ invokeTool ⟨none, "key"⟩
        ⟨"firecrawl_search", searchToolDescription, searchSchema, "search"⟩
        (fun _ => Except.ok Json.null) 0
        (JsonObj.cons "query" (Json.str "") .nil)
      = (.error (.other "Received tool input did not match expected schema"),
         []) :=
  ⟨rfl, rfl,
   (c10_query_min_length.2.2.2.1 ⟨none, "key"⟩ (fun _ => Except.ok Json.null) 0
     (JsonObj.cons "query" (Json.str "") .nil)
     ⟨"firecrawl_search", searchToolDescription, searchSchema, "search"⟩
     rfl rfl).1⟩

/-! ### Round trip of the pretty rendering through the parser.

These lemmas culminate in `jsonParse_stringifyPretty`: parsing
`JSON.stringify(v, null, 2)` recovers `v` exactly. -/

theorem string_mk_data (s : String) : String.mk s.data = s := by
  cases s; rfl

theorem skipWs_cons_ws (c : Char) (h : isJsonWs c = true) (l : List Char) :
    skipWs (c :: l) = skipWs l := by
  simp [skipWs, h]

theorem skipWs_cons_not_ws (c : Char) (h : isJsonWs c = false) (l : List Char) :
    skipWs (c :: l) = c :: l := by
  simp [skipWs, h]

theorem skipWs_spaces (n : Nat) (l : List Char) :
    skipWs (spaces n ++ l) = skipWs l := by
  induction n with
  | zero => simp [spaces]
  | succ k ih =>
      simp only [spaces, List.replicate_succ, List.cons_append]
      rw [skipWs_cons_ws ' ' (by decide)]
      simpa [spaces] using ih

theorem isJsonWs_of_isDigit (c : Char) (h : c.isDigit = true) :
    isJsonWs c = false := by
  cases hc : isJsonWs c
  · rfl
  · exfalso
    simp only [isJsonWs, Bool.or_eq_true, decide_eq_true_eq] at hc
    have : c = ' ' ∨ c = '\n' ∨ c = '\t' ∨ c = '\r' := by tauto
    rcases this with rfl | rfl | rfl | rfl <;> exact absurd h (by decide)

theorem isDigit_ne (c x : Char) (h : c.isDigit = true)
    (hx : x.isDigit = false) : c ≠ x := by
  rintro rfl
  rw [h] at hx
  cases hx

theorem decDigitChar_isDigit (d : Nat) (h : d < 10) :
    (decDigitChar d).isDigit = true := by
  interval_cases d <;> decide

theorem digitVal_decDigitChar (d : Nat) (h : d < 10) :
    digitVal (decDigitChar d) = d := by
  interval_cases d <;> decide

theorem renderNat_digits (n : Nat) : ∀ c ∈ renderNat n, c.isDigit = true := by
  intro c hc
  rw [renderNat] at hc
  by_cases h : n = 0
  · rw [if_pos h] at hc
    simp only [List.mem_singleton] at hc
    subst hc; decide
  · rw [if_neg h] at hc
    obtain ⟨d, hd, rfl⟩ := List.mem_map.mp hc
    exact decDigitChar_isDigit d
      (Nat.digits_lt_base (by norm_num) (List.mem_reverse.mp hd))

theorem renderNat_ne_nil (n : Nat) : renderNat n ≠ [] := by
  rw [renderNat]
  by_cases h : n = 0
  · simp [h]
  · simp [h, Nat.digits_ne_nil_iff_ne_zero]

theorem digitsToNat_map_rev (L : List Nat) (hL : ∀ d ∈ L, d < 10) :
    digitsToNat ((L.reverse).map decDigitChar) = Nat.ofDigits 10 L := by
  induction L with
  | nil => simp [digitsToNat]
  | cons d L' ih =>
      simp only [List.reverse_cons, List.map_append, List.map_cons,
        List.map_nil]
      rw [digitsToNat, List.foldl_append]
      simp only [List.foldl_cons, List.foldl_nil]
      rw [show List.foldl (fun acc c => 10 * acc + digitVal c) 0
            ((L'.reverse).map decDigitChar)
          = digitsToNat ((L'.reverse).map decDigitChar) from rfl]
      rw [ih (fun x hx => hL x (List.mem_cons_of_mem _ hx))]
      rw [digitVal_decDigitChar d (hL d (List.mem_cons_self _ _))]
      rw [Nat.ofDigits_cons]
      ring

theorem digitsToNat_renderNat (n : Nat) : digitsToNat (renderNat n) = n := by
  rw [renderNat]
  by_cases h : n = 0
  · subst h; decide
  · rw [if_neg h, digitsToNat_map_rev _
      (fun d hd => Nat.digits_lt_base (by norm_num) hd)]
    exact Nat.ofDigits_digits 10 n

theorem takeDigits_of_digits (ds rest : List Char)
    (hds : ∀ c ∈ ds, c.isDigit = true) (hrest : headNotDigit rest) :
    takeDigits (ds ++ rest) = (ds, rest) := by
  induction ds with
  | nil =>
      cases rest with
      | nil => rfl
      | cons c cs =>
          simp only [List.nil_append]
          rw [takeDigits]
          simp only [headNotDigit] at hrest
          simp [hrest]
  | cons d ds' ih =>
      have hd : d.isDigit = true := hds d (List.mem_cons_self _ _)
      simp only [List.cons_append]
      rw [takeDigits]
      simp [hd, ih (fun c hc => hds c (List.mem_cons_of_mem _ hc))]

theorem hexVal_hexDigitChar (d : Nat) (h : d < 16) :
    hexVal (hexDigitChar d) = some d := by
  interval_cases d <;> decide

theorem parseStringBody_escape (cs : List Char) :
    ∀ rest : List Char,
      parseStringBody ((cs.map escapeChar).flatten ++ '"' :: rest)
        = some (cs, rest) := by
  induction cs with
  | nil =>
      intro rest
      simp only [List.map_nil, List.flatten_nil, List.nil_append]
      rw [parseStringBody.eq_def]; simp
  | cons c cs' ih =>
      intro rest
      simp only [List.map_cons, List.flatten_cons, List.append_assoc]
      rw [escapeChar]
      split_ifs with h1 h2 h3 h4 h5 h6 h7 h8
      · subst h1
        simp only [List.cons_append, List.nil_append]
        rw [parseStringBody.eq_def]; simp [consChar, ih]
      · subst h2
        simp only [List.cons_append, List.nil_append]
        rw [parseStringBody.eq_def]; simp [consChar, ih]
      · subst h3
        simp only [List.cons_append, List.nil_append]
        rw [parseStringBody.eq_def]; simp [consChar, ih]
      · subst h4
        simp only [List.cons_append, List.nil_append]
        rw [parseStringBody.eq_def]; simp [consChar, ih]
      · subst h5
        simp only [List.cons_append, List.nil_append]
        rw [parseStringBody.eq_def]; simp [consChar, ih]
      · subst h6
        simp only [List.cons_append, List.nil_append]
        rw [parseStringBody.eq_def]; simp [consChar, ih]
      · subst h7
        simp only [List.cons_append, List.nil_append]
        rw [parseStringBody.eq_def]; simp [consChar, ih]
      · -- the `\u00xx` escape for a remaining control character
        have hdiv : c.toNat / 16 < 16 := by omega
        have hmod : c.toNat % 16 < 16 := by omega
        simp only [List.cons_append, List.nil_append]
        rw [parseStringBody.eq_def]
        simp only [reduceIte, reduceCtorEq]
        rw [show hexVal '0' = some 0 from rfl,
          hexVal_hexDigitChar _ hdiv, hexVal_hexDigitChar _ hmod]
        simp only []
        rw [show 4096 * 0 + 256 * 0 + 16 * (c.toNat / 16) + c.toNat % 16
            = c.toNat from by omega, Char.ofNat_toNat, ih rest]
        rfl
      · -- an ordinary character stands for itself
        simp only [List.cons_append, List.nil_append]
        rw [parseStringBody.eq_def]
        simp [h1, h2, consChar, ih]

theorem render_head (v : Json) (ind : Nat) :
    ∃ c t, Json.render v ind = c :: t ∧ isJsonWs c = false
      ∧ c ≠ ']' ∧ c ≠ '\x7d' := by
  cases v with
  | null =>
      exact ⟨'n', ['u', 'l', 'l'], by simp [Json.render], by decide, by decide,
        by decide⟩
  | bool b =>
      cases b with
      | false =>
          exact ⟨'f', ['a', 'l', 's', 'e'], by simp [Json.render], by decide,
            by decide, by decide⟩
      | true =>
          exact ⟨'t', ['r', 'u', 'e'], by simp [Json.render], by decide,
            by decide, by decide⟩
  | num n =>
      by_cases hn : n < 0
      · exact ⟨'-', renderNat n.natAbs, by simp [Json.render, renderInt, hn],
          by decide, by decide, by decide⟩
      · obtain ⟨d, t, hdt⟩ :=
          List.exists_cons_of_ne_nil (renderNat_ne_nil n.natAbs)
        have hd : d.isDigit = true :=
          renderNat_digits n.natAbs d (by rw [hdt]; exact List.mem_cons_self _ _)
        exact ⟨d, t, by simp [Json.render, renderInt, hn, hdt],
          isJsonWs_of_isDigit d hd, isDigit_ne d ']' hd (by decide),
          isDigit_ne d '\x7d' hd (by decide)⟩
  | str s =>
      exact ⟨'"', (List.map escapeChar s.data).flatten ++ ['"'],
        by simp [Json.render, quoteString], by decide, by decide, by decide⟩
  | arr xs =>
      cases xs with
      | nil => exact ⟨'[', [']'], by simp [Json.render], by decide, by decide,
          by decide⟩
      | cons x xs' =>
          exact ⟨'[', '\n' :: (spaces (ind + 2) ++ (Json.render x (ind + 2)
              ++ (JsonArr.renderTail xs' (ind + 2)
                ++ '\n' :: (spaces ind ++ [']'])))),
            by simp [Json.render], by decide, by decide, by decide⟩
  | obj ms =>
      cases ms with
      | nil => exact ⟨'\x7b', ['\x7d'], by simp [Json.render], by decide,
          by decide, by decide⟩
      | cons k v' ms' =>
          exact ⟨'\x7b', '\n' :: (spaces (ind + 2) ++ (quoteString k
              ++ ':' :: ' ' :: (Json.render v' (ind + 2)
                ++ (JsonObj.renderTail ms' (ind + 2)
                  ++ '\n' :: (spaces ind ++ ['\x7d']))))),
            by simp [Json.render], by decide, by decide, by decide⟩

theorem skipWs_render (v : Json) (ind : Nat) (l : List Char) :
    skipWs (Json.render v ind ++ l) = Json.render v ind ++ l := by
  obtain ⟨c, t, h, hws, -, -⟩ := render_head v ind
  rw [h, List.cons_append, skipWs_cons_not_ws c hws]

theorem headNotDigit_arrTail (xs : JsonArr) (ind k : Nat) (rest : List Char) :
    headNotDigit (JsonArr.renderTail xs ind
      ++ '\n' :: spaces k ++ ']' :: rest) := by
  cases xs with
  | nil =>
      simp only [JsonArr.renderTail, List.nil_append]
      show ('\n').isDigit = false
      decide
  | cons y ys =>
      simp only [JsonArr.renderTail, List.cons_append]
      show (',').isDigit = false
      decide

theorem headNotDigit_objTail (ms : JsonObj) (ind k : Nat) (rest : List Char) :
    headNotDigit (JsonObj.renderTail ms ind
      ++ '\n' :: spaces k ++ '\x7d' :: rest) := by
  cases ms with
  | nil =>
      simp only [JsonObj.renderTail, List.nil_append]
      show ('\n').isDigit = false
      decide
  | cons key v ms' =>
      simp only [JsonObj.renderTail, List.cons_append]
      show (',').isDigit = false
      decide

theorem parseVal_congr (fuel : Nat) (a b : List Char)
    (h : skipWs a = skipWs b) : parseVal fuel a = parseVal fuel b := by
  cases fuel with
  | zero => rfl
  | succ f => rw [parseVal.eq_2, parseVal.eq_2, h]

theorem parseVal_nl_spaces (fuel n : Nat) (l : List Char) :
    parseVal fuel ('\n' :: (spaces n ++ l)) = parseVal fuel l :=
  parseVal_congr fuel _ _
    (by rw [skipWs_cons_ws '\n' (by decide), skipWs_spaces])

theorem json_weight_pos (v : Json) : 1 ≤ Json.weight v := by
  cases v <;> simp only [Json.weight] <;> omega

theorem arr_weight_pos (xs : JsonArr) : 1 ≤ JsonArr.weight xs := by
  cases xs <;> simp only [JsonArr.weight] <;> omega

theorem obj_weight_pos (ms : JsonObj) : 1 ≤ JsonObj.weight ms := by
  cases ms <;> simp only [JsonObj.weight] <;> omega

/-- The fuel weight of a value is at most the length of its rendering plus
one, so `jsonParse`'s fuel suffices.  (Stated for all values of size at
most `n` to get a mutual induction over the three `Json` types.) -/
theorem weight_le_render (n : Nat) :
    (∀ v : Json, sizeOf v ≤ n → ∀ ind,
      Json.weight v ≤ (Json.render v ind).length + 1)
    ∧ (∀ xs : JsonArr, sizeOf xs ≤ n → ∀ ind,
      JsonArr.weight xs ≤ (JsonArr.renderTail xs ind).length + 1)
    ∧ (∀ ms : JsonObj, sizeOf ms ≤ n → ∀ ind,
      JsonObj.weight ms ≤ (JsonObj.renderTail ms ind).length + 1) := by
  induction n with
  | zero =>
      refine ⟨?_, ?_, ?_⟩
      · intro v hv; exfalso; cases v <;> simp at hv
      · intro xs hxs; exfalso; cases xs <;> simp at hxs
      · intro ms hms; exfalso; cases ms <;> simp at hms
  | succ k ih =>
      obtain ⟨ihV, ihA, ihO⟩ := ih
      refine ⟨?_, ?_, ?_⟩
      · intro v hv ind
        cases v with
        | null => simp [Json.weight, Json.render]
        | bool b => cases b <;> simp [Json.weight, Json.render]
        | num m => simp only [Json.weight]; omega
        | str s => simp only [Json.weight]; omega
        | arr xs =>
            cases xs with
            | nil =>
                simp only [Json.weight, JsonArr.weight, Json.render,
                  List.length_cons, List.length_nil]
                omega
            | cons x xs' =>
                have hx : sizeOf x ≤ k := by simp at hv; omega
                have hxs : sizeOf xs' ≤ k := by simp at hv; omega
                have h1 := ihV x hx (ind + 2)
                have h2 := ihA xs' hxs (ind + 2)
                simp only [Json.weight, JsonArr.weight, Json.render,
                  List.length_cons, List.length_append, spaces,
                  List.length_replicate, List.length_nil]
                omega
        | obj ms =>
            cases ms with
            | nil =>
                simp only [Json.weight, JsonObj.weight, Json.render,
                  List.length_cons, List.length_nil]
                omega
            | cons key v' ms' =>
                have hv' : sizeOf v' ≤ k := by simp at hv; omega
                have hms : sizeOf ms' ≤ k := by simp at hv; omega
                have h1 := ihV v' hv' (ind + 2)
                have h2 := ihO ms' hms (ind + 2)
                simp only [Json.weight, JsonObj.weight, Json.render,
                  List.length_cons, List.length_append, spaces,
                  List.length_replicate, List.length_nil]
                omega
      · intro xs hxs ind
        cases xs with
        | nil =>
            simp only [JsonArr.weight, JsonArr.renderTail, List.length_nil]
            omega
        | cons y ys =>
            have hy : sizeOf y ≤ k := by simp at hxs; omega
            have hys : sizeOf ys ≤ k := by simp at hxs; omega
            have h1 := ihV y hy ind
            have h2 := ihA ys hys ind
            simp only [JsonArr.weight, JsonArr.renderTail, List.length_cons,
              List.length_append, spaces, List.length_replicate]
            omega
      · intro ms hms ind
        cases ms with
        | nil =>
            simp only [JsonObj.weight, JsonObj.renderTail, List.length_nil]
            omega
        | cons key v' ms' =>
            have hv' : sizeOf v' ≤ k := by simp at hms; omega
            have hms' : sizeOf ms' ≤ k := by simp at hms; omega
            have h1 := ihV v' hv' ind
            have h2 := ihO ms' hms' ind
            simp only [JsonObj.weight, JsonObj.renderTail, List.length_cons,
              List.length_append, spaces, List.length_replicate]
            omega

/-- Parsing a rendered value (with any following non-digit text) recovers
the value, given fuel at least its weight; likewise for rendered array and
object tails followed by their closing bracket. -/
theorem parse_render (fuel : Nat) :
    (∀ (v : Json) (ind : Nat) (rest : List Char), Json.weight v ≤ fuel →
      headNotDigit rest →
      parseVal fuel (Json.render v ind ++ rest) = some (v, rest))
    ∧ (∀ (xs : JsonArr) (ind indC : Nat) (rest : List Char),
      JsonArr.weight xs ≤ fuel →
      parseArrTail fuel (JsonArr.renderTail xs ind
        ++ '\n' :: spaces indC ++ ']' :: rest) = some (xs, rest))
    ∧ (∀ (ms : JsonObj) (ind indC : Nat) (rest : List Char),
      JsonObj.weight ms ≤ fuel →
      parseObjTail fuel (JsonObj.renderTail ms ind
        ++ '\n' :: spaces indC ++ '\x7d' :: rest) = some (ms, rest)) := by
  induction fuel with
  | zero =>
      refine ⟨?_, ?_, ?_⟩
      · intro v _ _ hw _
        exact absurd hw (by have := json_weight_pos v; omega)
      · intro xs _ _ _ hw
        exact absurd hw (by have := arr_weight_pos xs; omega)
      · intro ms _ _ _ hw
        exact absurd hw (by have := obj_weight_pos ms; omega)
  | succ f ih =>
      obtain ⟨ihV, ihA, ihO⟩ := ih
      simp only [List.cons_append, List.append_assoc] at ihA ihO
      refine ⟨?_, ?_, ?_⟩
      · intro v ind rest hw hrest
        cases v with
        | null =>
            simp only [Json.render, List.cons_append]
            rw [parseVal.eq_2, skipWs_cons_not_ws 'n' (by decide)]
            simp
        | bool b =>
            cases b with
            | true =>
                simp only [Json.render, List.cons_append]
                rw [parseVal.eq_2, skipWs_cons_not_ws 't' (by decide)]
                simp
            | false =>
                simp only [Json.render, List.cons_append]
                rw [parseVal.eq_2, skipWs_cons_not_ws 'f' (by decide)]
                simp
        | num m =>
            by_cases hn : m < 0
            · have htake := takeDigits_of_digits (renderNat m.natAbs) rest
                (renderNat_digits _) hrest
              obtain ⟨d, ds, hds⟩ :=
                List.exists_cons_of_ne_nil (renderNat_ne_nil m.natAbs)
              have hnum : -(digitsToNat (renderNat m.natAbs) : Int) = m := by
                rw [digitsToNat_renderNat]; omega
              rw [hds] at htake hnum
              simp only [List.cons_append] at htake
              simp only [Json.render, renderInt, if_pos hn, hds,
                List.cons_append]
              rw [parseVal.eq_2, skipWs_cons_not_ws '-' (by decide)]
              simp [htake, hnum]
            · obtain ⟨d, ds, hds⟩ :=
                List.exists_cons_of_ne_nil (renderNat_ne_nil m.natAbs)
              have hd : d.isDigit = true := renderNat_digits m.natAbs d
                (by rw [hds]; exact List.mem_cons_self _ _)
              have htake := takeDigits_of_digits (renderNat m.natAbs) rest
                (renderNat_digits _) hrest
              have hnum : (digitsToNat (renderNat m.natAbs) : Int) = m := by
                rw [digitsToNat_renderNat]; omega
              rw [hds] at htake hnum
              simp only [List.cons_append] at htake
              simp only [Json.render, renderInt, if_neg hn, hds,
                List.cons_append]
              rw [parseVal.eq_2,
                skipWs_cons_not_ws d (isJsonWs_of_isDigit d hd)]
              simp [isDigit_ne d 'n' hd (by decide),
                isDigit_ne d 't' hd (by decide),
                isDigit_ne d 'f' hd (by decide),
                isDigit_ne d '"' hd (by decide),
                isDigit_ne d '[' hd (by decide),
                isDigit_ne d '\x7b' hd (by decide),
                isDigit_ne d '-' hd (by decide), hd, htake, hnum]
        | str s =>
            simp only [Json.render, quoteString, List.cons_append,
              List.append_assoc, List.singleton_append]
            rw [parseVal.eq_2, skipWs_cons_not_ws '"' (by decide)]
            simp [parseStringBody_escape s.data rest, string_mk_data]
        | arr xs =>
            cases xs with
            | nil =>
                simp only [Json.render, List.cons_append]
                rw [parseVal.eq_2, skipWs_cons_not_ws '[' (by decide)]
                simp [skipWs_cons_not_ws, isJsonWs]
            | cons x xs' =>
                simp only [Json.weight, JsonArr.weight] at hw
                have h1 := ihV x (ind + 2)
                  (JsonArr.renderTail xs' (ind + 2)
                    ++ '\n' :: (spaces ind ++ (']' :: rest)))
                  (by omega)
                  (by
                    have := headNotDigit_arrTail xs' (ind + 2) ind rest
                    simpa [List.cons_append, List.append_assoc] using this)
                have h2 := ihA xs' (ind + 2) ind rest (by omega)
                have hskip : skipWs ('\n' :: (spaces (ind + 2)
                    ++ (Json.render x (ind + 2)
                      ++ (JsonArr.renderTail xs' (ind + 2)
                        ++ '\n' :: (spaces ind ++ (']' :: rest))))))
                    = Json.render x (ind + 2)
                      ++ (JsonArr.renderTail xs' (ind + 2)
                        ++ '\n' :: (spaces ind ++ (']' :: rest))) := by
                  rw [skipWs_cons_ws '\n' (by decide), skipWs_spaces,
                    skipWs_render]
                obtain ⟨c0, t0, hx0, -, hb0, -⟩ := render_head x (ind + 2)
                have hne : ((Json.render x (ind + 2)
                    ++ (JsonArr.renderTail xs' (ind + 2)
                      ++ '\n' :: (spaces ind ++ (']' :: rest)))).head?
                    = some ']') = False := by
                  rw [hx0]; simp [hb0]
                simp only [Json.render, List.cons_append, List.append_assoc,
                  List.singleton_append]
                rw [parseVal.eq_2, skipWs_cons_not_ws '[' (by decide)]
                simp [hskip, hne, h1, h2]
                refine ⟨by rw [hx0]; simp [hb0], fun hemp => ?_⟩
                rw [hx0] at hemp
                exact absurd hemp (by simp)
        | obj ms =>
            cases ms with
            | nil =>
                simp only [Json.render, List.cons_append]
                rw [parseVal.eq_2, skipWs_cons_not_ws '\x7b' (by decide)]
                simp [skipWs_cons_not_ws, isJsonWs]
            | cons key v' ms' =>
                simp only [Json.weight, JsonObj.weight] at hw
                have h1 := ihV v' (ind + 2)
                  (JsonObj.renderTail ms' (ind + 2)
                    ++ '\n' :: (spaces ind ++ ('\x7d' :: rest)))
                  (by omega)
                  (by
                    have := headNotDigit_objTail ms' (ind + 2) ind rest
                    simpa [List.cons_append, List.append_assoc] using this)
                have hpv : parseVal f (' ' :: (Json.render v' (ind + 2)
                    ++ (JsonObj.renderTail ms' (ind + 2)
                      ++ '\n' :: (spaces ind ++ ('\x7d' :: rest)))))
                    = some (v', JsonObj.renderTail ms' (ind + 2)
                      ++ '\n' :: (spaces ind ++ ('\x7d' :: rest))) := by
                  rw [parseVal_congr f _ _ (skipWs_cons_ws ' ' (by decide) _)]
                  exact h1
                have h2 := ihO ms' (ind + 2) ind rest (by omega)
                have hskip : skipWs ('\n' :: (spaces (ind + 2)
                    ++ ('"' :: ((key.data.map escapeChar).flatten
                      ++ '"' :: (':' :: ' ' :: (Json.render v' (ind + 2)
                        ++ (JsonObj.renderTail ms' (ind + 2)
                          ++ '\n' :: (spaces ind ++ ('\x7d' :: rest)))))))))
                    = '"' :: ((key.data.map escapeChar).flatten
                      ++ '"' :: (':' :: ' ' :: (Json.render v' (ind + 2)
                        ++ (JsonObj.renderTail ms' (ind + 2)
                          ++ '\n' :: (spaces ind ++ ('\x7d' :: rest)))))) := by
                  rw [skipWs_cons_ws '\n' (by decide), skipWs_spaces,
                    skipWs_cons_not_ws '"' (by decide)]
                simp only [Json.render, quoteString, List.cons_append,
                  List.append_assoc, List.singleton_append]
                rw [parseVal.eq_2, skipWs_cons_not_ws '\x7b' (by decide)]
                simp [hskip, parseStringBody_escape,
                  skipWs_cons_not_ws ':' (by decide), hpv, h2, string_mk_data]
      · intro xs ind indC rest hw
        cases xs with
        | nil =>
            simp only [JsonArr.renderTail, List.nil_append, List.cons_append,
              List.append_assoc]
            rw [parseArrTail.eq_2, skipWs_cons_ws '\n' (by decide),
              skipWs_spaces, skipWs_cons_not_ws ']' (by decide)]
            simp
        | cons y ys =>
            simp only [JsonArr.weight] at hw
            have h1 := ihV y ind
              (JsonArr.renderTail ys ind ++ '\n' :: (spaces indC
                ++ (']' :: rest)))
              (by omega)
              (by
                have := headNotDigit_arrTail ys ind indC rest
                simpa [List.cons_append, List.append_assoc] using this)
            have hpv : parseVal f ('\n' :: (spaces ind ++ (Json.render y ind
                ++ (JsonArr.renderTail ys ind ++ '\n' :: (spaces indC
                  ++ (']' :: rest))))))
                = some (y, JsonArr.renderTail ys ind ++ '\n' :: (spaces indC
                  ++ (']' :: rest))) := by
              rw [parseVal_nl_spaces]
              exact h1
            have h2 := ihA ys ind indC rest (by omega)
            simp only [JsonArr.renderTail, List.cons_append,
              List.append_assoc]
            rw [parseArrTail.eq_2, skipWs_cons_not_ws ',' (by decide)]
            simp [hpv, h2]
      · intro ms ind indC rest hw
        cases ms with
        | nil =>
            simp only [JsonObj.renderTail, List.nil_append, List.cons_append,
              List.append_assoc]
            rw [parseObjTail.eq_2, skipWs_cons_ws '\n' (by decide),
              skipWs_spaces, skipWs_cons_not_ws '\x7d' (by decide)]
            simp
        | cons key v' ms' =>
            simp only [JsonObj.weight] at hw
            have h1 := ihV v' ind
              (JsonObj.renderTail ms' ind ++ '\n' :: (spaces indC
                ++ ('\x7d' :: rest)))
              (by omega)
              (by
                have := headNotDigit_objTail ms' ind indC rest
                simpa [List.cons_append, List.append_assoc] using this)
            have hpv : parseVal f (' ' :: (Json.render v' ind
                ++ (JsonObj.renderTail ms' ind ++ '\n' :: (spaces indC
                  ++ ('\x7d' :: rest)))))
                = some (v', JsonObj.renderTail ms' ind ++ '\n' :: (spaces indC
                  ++ ('\x7d' :: rest))) := by
              rw [parseVal_congr f _ _ (skipWs_cons_ws ' ' (by decide) _)]
              exact h1
            have h2 := ihO ms' ind indC rest (by omega)
            have hskip : skipWs ('\n' :: (spaces ind
                ++ ('"' :: ((key.data.map escapeChar).flatten
                  ++ '"' :: (':' :: ' ' :: (Json.render v' ind
                    ++ (JsonObj.renderTail ms' ind
                      ++ '\n' :: (spaces indC ++ ('\x7d' :: rest)))))))))
                = '"' :: ((key.data.map escapeChar).flatten
                  ++ '"' :: (':' :: ' ' :: (Json.render v' ind
                    ++ (JsonObj.renderTail ms' ind
                      ++ '\n' :: (spaces indC ++ ('\x7d' :: rest)))))) := by
              rw [skipWs_cons_ws '\n' (by decide), skipWs_spaces,
                skipWs_cons_not_ws '"' (by decide)]
            simp only [JsonObj.renderTail, quoteString, List.cons_append,
              List.append_assoc, List.singleton_append]
            rw [parseObjTail.eq_2, skipWs_cons_not_ws ',' (by decide)]
            simp [hskip, parseStringBody_escape,
              skipWs_cons_not_ws ':' (by decide), hpv, h2, string_mk_data]

/-- Parsing `JSON.stringify(v, null, 2)` recovers `v` exactly. -/
theorem jsonParse_stringifyPretty (v : Json) :
    jsonParse (stringifyPretty v) = some v := by
  have hw : Json.weight v ≤ (Json.render v 0).length + 1 :=
    (weight_le_render (sizeOf v)).1 v (le_refl _) 0
  have hp := (parse_render ((Json.render v 0).length + 1)).1 v 0 [] hw
    (by constructor)
  rw [List.append_nil] at hp
  rw [jsonParse, stringifyPretty]
  rw [show (String.mk (Json.render v 0)).data = Json.render v 0 from rfl,
    show (String.mk (Json.render v 0)).length = (Json.render v 0).length
      from rfl, hp]
  simp [skipWs]

/-! ### Claim C4 -/

/-- Claim C4: a successful invocation returns the remote JSON response `R`
rendered as `JSON.stringify(R, null, 2)` — the response itself, in no
envelope — and parsing that string back yields a value equal to `R`. -/
theorem c4_response_roundtrip (creds : FirecrawlCredentials) (op : String)
    (http : HttpRequest → Except JsError Json) (index : Nat) (input : JsonObj)
    (response : Json)
    (h : http (makeFirecrawlRequest creds op input) = .ok response) :
    (toolHandler creds op http index input).1
        = .ok (stringifyPretty response)
    ∧ jsonParse (stringifyPretty response) = some response := by
  constructor
  · simp [toolHandler, h]
  · exact jsonParse_stringifyPretty response

/-- Witness for C4 at the spec's concrete crawl scenario: a stub returning
`\x7b "id": "job-123" \x7d` yields the two-space-indented rendering, which
parses back to the stub response. -/
theorem c4_response_roundtrip_witness :
    ((fun _ => Except.ok (Json.obj (.cons "id" (.str "job-123") .nil))
        : HttpRequest → Except JsError Json)
      (makeFirecrawlRequest ⟨none, "key"⟩ "crawl"
        (JsonObj.cons "url" (Json.str "https://example.com/blog")
          (JsonObj.cons "limit" (Json.num 20) .nil)))
      = Except.ok (Json.obj (.cons "id" (.str "job-123") .nil)))
    ∧ ((toolHandler ⟨none, "key"⟩ "crawl"
          (fun _ => Except.ok (Json.obj (.cons "id" (.str "job-123") .nil))) 0
          (JsonObj.cons "url" (Json.str "https://example.com/blog")
            (JsonObj.cons "limit" (Json.num 20) .nil))).1
        = .ok (stringifyPretty (Json.obj (.cons "id" (.str "job-123") .nil)))
      ∧ jsonParse (stringifyPretty (Json.obj (.cons "id" (.str "job-123") .nil)))
        = some (Json.obj (.cons "id" (.str "job-123") .nil)))
    ∧ stringifyPretty (Json.obj (.cons "id" (.str "job-123") .nil))
        = "\x7b\n  \"id\": \"job-123\"\n\x7d" :=
  ⟨rfl,
   c4_response_roundtrip ⟨none, "key"⟩ "crawl"
     (fun _ => Except.ok (Json.obj (.cons "id" (.str "job-123") .nil))) 0
     (JsonObj.cons "url" (Json.str "https://example.com/blog")
       (JsonObj.cons "limit" (Json.num 20) .nil))
     (Json.obj (.cons "id" (.str "job-123") .nil)) rfl,
   rfl⟩

end Firecrawl
